import Mathlib

/-!
Verification of the LBBS IRC door (`src/doors/door_irc.c`) and the thread
management helpers (`src/bbs/thread.c`) against their natural-language
specification.  Each C function relevant to a claim is shallowly embedded as
an executable Lean definition; theorems about those definitions settle the
claims.
-/

/-! ## Broadcast engine: `__chat_send` (door_irc.c:474-529)

A participant is modelled by the data the broadcast loop inspects: an identity
(standing in for the `struct participant *` pointer), the assigned channel
string, and whether the attached node is a TDD (legacy terminal).
-/

structure Prt where
  pid : Nat
  channel : String
  tdd : Bool
deriving DecidableEq

/-- The two payloads `__chat_send` can write onto a participant's chat pipe:
the fixed-width timestamp `datestr`, and the message text itself. -/
inductive WKind
  | ts
  | msg
deriving DecidableEq

/-- The participant-traversal loop of `__chat_send` (door_irc.c:503-526),
embedded faithfully, including the threading of the C variable `res` across
loop iterations (it is only assigned inside `if (!NODE_IS_TDD(p->node))`, so
for a TDD participant the guard `if (res > 0)` reads the value left over from
the previous iteration — or the uninitialized initial value `res0`).

`wr pid k` is the result of `write()` on participant `pid`'s pipe for payload
kind `k`; the returned list records the writes that succeeded (result `> 0`),
i.e. the bytes that actually landed in delivery queues.  The C skip
conditions are modelled verbatim: `p == sender` and
`!strlen_zero(channel) && strcmp(p->channel, channel)` (a NULL channel and an
empty channel behave identically in this function, so `channel` is a plain
string with `""` for NULL-or-empty). -/
def chatSendStep (wr : Nat → WKind → Int) (p : Prt) (res : Int) :
    List (Prt × WKind) × Int :=
  let res1 : Int := if p.tdd then res else wr p.pid WKind.ts
  let ev1 : List (Prt × WKind) :=
    if ¬ p.tdd ∧ 0 < res1 then [(p, WKind.ts)] else []
  let res2 : Int := if 0 < res1 then wr p.pid WKind.msg else res1
  let ev2 : List (Prt × WKind) :=
    if 0 < res1 ∧ 0 < res2 then [(p, WKind.msg)] else []
  (ev1 ++ ev2, res2)

def chatSendWrites (channel : String) (sender : Option Nat)
    (wr : Nat → WKind → Int) : List Prt → Int → List (Prt × WKind)
  | [], _ => []
  | p :: ps, res =>
    if sender = some p.pid then
      chatSendWrites channel sender wr ps res
    else if channel ≠ "" ∧ p.channel ≠ channel then
      chatSendWrites channel sender wr ps res
    else
      (chatSendStep wr p res).1
        ++ chatSendWrites channel sender wr ps (chatSendStep wr p res).2

theorem chatSendStep_mem {wr : Nat → WKind → Int} {p : Prt} {res : Int} :
    ∀ e ∈ (chatSendStep wr p res).1, e.1 = p := by
  intro e he
  simp only [chatSendStep, List.mem_append] at he
  rcases he with hm | hm <;> split at hm <;> simp_all

/-! ## Timestamp format (door_irc.c:476-489)

`__chat_send` formats the current local time with
`strftime(datestr, sizeof(datestr), "%m-%d %I:%M:%S%P ", &sendtime)` into an
18-byte buffer and asserts the result has length 17.  The strftime conversion
for this fixed format is embedded below: `%m`/`%d`/`%I`/`%M`/`%S` are
zero-padded two-digit decimal fields (printed at full width if the field value
somehow exceeded 99), `%P` is the lowercase meridiem (`am`/`pm`, two bytes in
the C locale), and the literal separators are copied through. -/

structure Tm where
  mon : Nat
  mday : Nat
  hour : Nat
  min : Nat
  sec : Nat
deriving DecidableEq

/-- Zero-padded two-digit decimal field, as produced by `%m`, `%d`, `%I`,
`%M`, `%S` for in-range values. -/
def pad2 (n : Nat) : List Char :=
  if n < 100 then [Nat.digitChar (n / 10), Nat.digitChar (n % 10)]
  else Nat.toDigits 10 n

/-- `%I`: hour on the 12-hour clock, 01-12, from `tm_hour` (0-23). -/
def hour12 (h : Nat) : Nat :=
  if h % 12 = 0 then 12 else h % 12

/-- `%P` (glibc): lowercase meridiem designation. -/
def amPm (h : Nat) : List Char :=
  if h % 24 < 12 then ['a', 'm'] else ['p', 'm']

/-- The `datestr` computed at door_irc.c:487 for a broken-down time. -/
def chatDatestr (t : Tm) : List Char :=
  pad2 (t.mon + 1) ++ '-' :: pad2 t.mday ++ ' ' :: pad2 (hour12 t.hour)
    ++ ':' :: pad2 t.min ++ ':' :: pad2 t.sec ++ amPm t.hour ++ [' ']

theorem pad2_length {n : Nat} (h : n < 100) : (pad2 n).length = 2 := by
  simp [pad2, h]

theorem hour12_lt_100 (h : Nat) : hour12 h < 100 := by
  unfold hour12
  split
  · omega
  · exact lt_trans (Nat.mod_lt h (by omega)) (by omega)

theorem amPm_length (h : Nat) : (amPm h).length = 2 := by
  unfold amPm
  split <;> rfl

/-- C10: for every broken-down time whose fields are in the ranges
`localtime` can produce (each two-digit field below 100), the string produced
by the format `"%m-%d %I:%M:%S%P "` has length exactly 17, so
`bbs_assert(timelen == 17)` at door_irc.c:489 never fails, and together with
the terminating NUL the result occupies 18 bytes: exactly the size of
`datestr`, so `strftime` never truncates. -/
theorem chat_datestr_length_17 (t : Tm) (hmon : t.mon + 1 < 100)
    (hmday : t.mday < 100) (hmin : t.min < 100) (hsec : t.sec < 100) :
    (chatDatestr t).length = 17 ∧ (chatDatestr t).length + 1 ≤ 18 := by
  have h12 := hour12_lt_100 t.hour
  constructor
  · simp [chatDatestr, pad2_length, hmon, hmday, hmin, hsec, h12,
      pad2_length h12, amPm_length]
  · simp [chatDatestr, pad2_length, hmon, hmday, hmin, hsec,
      pad2_length h12, amPm_length]

/-- Witness for C10 at a concrete time (2026-10-11 21:30:05). -/
theorem chat_datestr_length_17_witness :
    (chatDatestr ⟨9, 11, 21, 30, 5⟩).length = 17 ∧
      (chatDatestr ⟨9, 11, 21, 30, 5⟩).length + 1 ≤ 18 :=
  chat_datestr_length_17 ⟨9, 11, 21, 30, 5⟩ (by decide) (by decide)
    (by decide) (by decide)

/-- C1: a broadcast with a sender never writes onto the sender's own
delivery queue (the loop `continue`s on `p == sender` before any `write`),
and when the channel argument is non-empty, every byte written goes to a
participant whose assigned channel compares equal to it (the loop
`continue`s on `strcmp(p->channel, channel)` otherwise).  This holds for any
participant list, any write-result oracle and any initial value of the C
variable `res`. -/
theorem chat_send_sender_excluded_channel_filtered (ps : List Prt)
    (ch : String) (sid : Nat) (wr : Nat → WKind → Int) (res0 : Int) :
    ∀ e ∈ chatSendWrites ch (some sid) wr ps res0,
      e.1.pid ≠ sid ∧ (ch ≠ "" → e.1.channel = ch) := by
  induction ps generalizing res0 with
  | nil => simp [chatSendWrites]
  | cons p ps ih =>
    by_cases h1 : (some sid : Option Nat) = some p.pid
    · simpa [chatSendWrites, h1] using ih _
    · by_cases h2 : ch ≠ "" ∧ p.channel ≠ ch
      · simpa [chatSendWrites, h1, h2] using ih _
      · have hpid : p.pid ≠ sid := by
          intro hc
          exact h1 (by rw [hc])
        have hchan : ch ≠ "" → p.channel = ch := by
          intro hne
          by_contra hcc
          exact h2 ⟨hne, hcc⟩
        intro e he
        simp only [chatSendWrites, if_neg h1, if_neg h2] at he
        rcases List.mem_append.mp he with he1 | he2
        · rw [chatSendStep_mem e he1]
          exact ⟨hpid, hchan⟩
        · exact ih _ e he2

/-- Witness for C1: client with sender (pid 1), a matching participant
(pid 2) and a participant on another channel (pid 3); all writes succeed,
and the timestamp write to participant 2 is a delivered event. -/
theorem chat_send_sender_excluded_channel_filtered_witness :
    ((⟨2, "#lobby", false⟩, WKind.ts) : Prt × WKind).1.pid ≠ 1 ∧
      ("#lobby" ≠ "" →
        ((⟨2, "#lobby", false⟩, WKind.ts) : Prt × WKind).1.channel = "#lobby") :=
  chat_send_sender_excluded_channel_filtered
    [⟨1, "#lobby", false⟩, ⟨2, "#lobby", false⟩, ⟨3, "#other", false⟩]
    "#lobby" 1 (fun _ _ => 1) 1 (⟨2, "#lobby", false⟩, WKind.ts) (by decide)

/-- C8 (code bug evaluation): participant 1 is not a TDD and its pipe write
fails (`write` returns 0); participant 2 is a TDD on the same channel with a
perfectly working pipe.  Because the guard `if (res > 0)` at door_irc.c:519
reads the stale `res` left by participant 1's failed write (a TDD iteration
never assigns `res` at line 517), participant 2's message write is never
attempted: nothing at all lands in any queue, although the claim (and the
code's own comment "Even if one send fails, don't fail all of them")
requires the TDD participant to receive the message text. -/
theorem chat_send_tdd_starved_by_stale_res :
    chatSendWrites "#lobby" none
      (fun pid _ => if pid = 1 then 0 else 1)
      [⟨1, "#lobby", false⟩, ⟨2, "#lobby", true⟩] 1 = [] := by
  decide

/-! ## Relay reader: `client_relay` (door_irc.c:375-472)

The reader accumulates raw bytes in one fixed buffer.  `start` marks the
beginning of the current (possibly partial) message, `mybuf` the position
where the next `irc_read` deposits bytes.  After each read the code scans for
`"\r\n"` with `eom = strstr(mybuf, "\r\n")` — i.e. the scan begins at the
newly read bytes, not at `start`.  A complete message is null-isolated (the
byte after the `'\r'` is overwritten with NUL unless the message ends the
buffer) and handed to `irc_parse_msg`/`handle_irc_msg`; an incomplete tail is
kept (`mybuf = prevbuf + res; goto begin`).  The model below represents the
bytes from `start` to the end of buffered data as `pending`, and each read's
bytes as `incoming`; dispatched raw strings are returned as `List Char`
values exactly as the C hands them to `irc_parse_msg` (including the
terminating `'\r'`, plus the `'\n'` when the message ends the buffer). -/

/-- Index of the first occurrence of `"\r\n"`, as found by `strstr`. -/
def findCRLF : List Char → Option Nat
  | [] => none
  | c :: rest =>
    if c = '\r' ∧ rest.head? = some '\n' then some 0
    else (findCRLF rest).map (· + 1)

theorem findCRLF_bound : ∀ {l : List Char} {i : Nat},
    findCRLF l = some i → i + 2 ≤ l.length := by
  intro l
  induction l with
  | nil => intro i h; simp [findCRLF] at h
  | cons c rest ih =>
    intro i h
    simp only [findCRLF] at h
    split at h
    · rename_i hc
      obtain ⟨-, hh⟩ := hc
      have hi : i = 0 := by simpa using h.symm
      subst hi
      cases rest with
      | nil => simp at hh
      | cons d t => simp only [List.length_cons]; omega
    · rcases Option.map_eq_some'.mp h with ⟨j, hj, rfl⟩
      have := ih hj
      simp only [List.length_cons]
      omega

/-- The inner `do { ... } while (mybuf && *mybuf)` loop of door_irc.c:439-464
after the first message of a read has been isolated: `start` and `mybuf` both
sit at `eom + 2`, so the remaining data is scanned from its beginning.
Returns the dispatched raw messages and the leftover partial fragment.  The
fuel argument only bounds the number of iterations so the recursion is
structural; each iteration consumes at least two bytes, so fuel equal to the
data length (as `scanRest` passes) is never exhausted. -/
def scanRestAux : Nat → List Char → List (List Char) × List Char
  | 0, l => ([], l)
  | fuel + 1, l =>
    match findCRLF l with
    | none => ([], l)
    | some i =>
      let d := if i + 2 < l.length then l.take (i + 1) else l.take (i + 2)
      let r := scanRestAux fuel (l.drop (i + 2))
      (d :: r.1, r.2)

def scanRest (l : List Char) : List (List Char) × List Char :=
  scanRestAux l.length l

/-- One full read-and-scan round of `client_relay` (door_irc.c:431-467):
`pending` holds the bytes from `start` to the end of buffered data before the
read, `incoming` the bytes this `irc_read` returned.  Crucially, the first
`strstr` of the round searches only from `mybuf` — the start of `incoming` —
so a `"\r\n"` pair straddling the read boundary is not found.  Returns
(dispatched messages, new pending fragment). -/
def processRead (pending incoming : List Char) : List (List Char) × List Char :=
  let data := pending ++ incoming
  match findCRLF incoming with
  | none => ([], data)
  | some i =>
    let j := pending.length + i
    let d := if j + 2 < data.length then data.take (j + 1) else data.take (j + 2)
    let r := scanRest (data.drop (j + 2))
    (d :: r.1, r.2)

/-- The raw bytes of the spec's example line. -/
def lineC2 : List Char := ("PRIVMSG #lobby :partial message" ++ "\r\n").toList

/-- C2 (code bug evaluation): delivered in a single read, the example line is
dispatched exactly once, as one message.  Split at the boundary between its
`'\r'` and `'\n'`, the first read dispatches nothing and keeps the fragment
(as the claim requires), but the second read also dispatches nothing: the
terminator now straddles the boundary and `strstr(mybuf, "\r\n")` — which
scans only the newly read bytes — cannot see it.  The complete line sits
undispatched in the buffer, to be concatenated with whatever arrives next, so
this split never yields the one identical message the claim promises. -/
theorem relay_split_crlf_boundary_drops_message :
    (processRead [] lineC2).1 = [lineC2] ∧
      processRead [] lineC2.dropLast = ([], lineC2.dropLast) ∧
      (processRead lineC2.dropLast ['\n']).1 = [] ∧
      (processRead lineC2.dropLast ['\n']).2 = lineC2 := by
  constructor
  · decide
  constructor
  · decide
  constructor
  · decide
  · decide

/-! ## Relay reader buffer maintenance (door_irc.c:401-421)

At the top of each round, if free space `mylen = N - (mybuf - readbuf)` has
dropped to at most one byte (`N` is the usable capacity,
`sizeof(readbuf) - 1`), the unconsumed bytes `[start, end)` are shifted to
the front of the buffer.  If that reclaims nothing — the pending partial line
already starts at the front and fills the buffer — the buffer is reset to
empty, `bbs_error("Buffer truncation!")` is logged, and the loop proceeds to
the next poll/read with the partial line discarded; the thread does not exit
and the connection is not dropped. -/

structure RelayBuf where
  startOff : Nat
  dataEnd : Nat
deriving DecidableEq

/-- The `mylen <= 1` maintenance block (door_irc.c:403-421).  Returns the
buffer state the loop continues with, paired with whether the
"Buffer truncation!" error was logged (and the partial line discarded). -/
def relayCompact (N : Nat) (b : RelayBuf) : RelayBuf × Bool :=
  if N - b.dataEnd ≤ 1 then
    let shifted : RelayBuf := ⟨0, b.dataEnd - b.startOff⟩
    if N - shifted.dataEnd ≤ 1 then
      (⟨0, 0⟩, true)
    else
      (shifted, false)
  else
    (b, false)

/-- C5: when the single pending line starts at the front of the buffer
(`start == readbuf`, nothing before it to reclaim) and has filled the buffer
(free space at most one byte), the maintenance block resets the buffer to
empty — discarding the partial line — and logs the error, and the reader
continues with a fresh, full-capacity buffer rather than aborting: the
result is a live successor state, not a thread exit. -/
theorem relay_oversized_line_reset (N : Nat) (b : RelayBuf)
    (hstart : b.startOff = 0) (hfull : N - b.dataEnd ≤ 1) :
    relayCompact N b = (⟨0, 0⟩, true) := by
  simp [relayCompact, hstart, hfull]

/-- Witness for C5: capacity 512 with a 512-byte unterminated line. -/
theorem relay_oversized_line_reset_witness :
    relayCompact 512 ⟨0, 512⟩ = (⟨0, 0⟩, true) :=
  relay_oversized_line_reset 512 ⟨0, 512⟩ rfl (by decide)

/-! ## Command dispatcher: `handle_irc_msg` (door_irc.c:258-373)

The dispatcher inspects a parsed message and produces side effects: relays to
local participants (`relay_to_local`, i.e. `_chat_send` with no sender and
`dorelay = 0`), CTCP replies and raw sends on the outbound IRC connection,
and log lines.  Those effects are captured as a list.  String surgery on the
body (`strsep`, pointer increments, `strchr` truncation) is embedded verbatim
on `List Char`. -/

/-- The CTCP extended-data delimiter byte `0x01`. -/
def ctcpDelim : Char := Char.ofNat 1

/-- `strsep(&s, d)`: the first token, and the remainder after the first
delimiter (`none` when the delimiter does not occur — C then sets the
pointer to NULL). -/
def strsepAt (d : Char) : List Char → List Char × Option (List Char)
  | [] => ([], none)
  | c :: rest =>
    if c = d then ([], some rest)
    else
      let r := strsepAt d rest
      (c :: r.1, r.2)

/-- `strchr`-then-NUL truncation (door_irc.c:292-297): the content up to the
first occurrence of `d`, and whether `d` was found (when absent the code logs
an error and keeps the whole string). -/
def truncAt (d : Char) (l : List Char) : List Char × Bool :=
  ((strsepAt d l).1, (strsepAt d l).2.isSome)

theorem strsepAt_not_mem {d : Char} {l : List Char} (h : d ∉ l) :
    strsepAt d l = (l, none) := by
  induction l with
  | nil => rfl
  | cons c rest ih =>
    have hc : ¬ c = d := fun hcd => h (hcd ▸ List.mem_cons_self c rest)
    have hrest : d ∉ rest := fun hm => h (List.mem_cons_of_mem c hm)
    simp [strsepAt, hc, ih hrest]

theorem strsepAt_append {d : Char} {x y : List Char} (h : d ∉ x) :
    strsepAt d (x ++ d :: y) = (x, some y) := by
  induction x with
  | nil => simp [strsepAt]
  | cons c rest ih =>
    have hc : ¬ c = d := fun hcd => h (hcd ▸ List.mem_cons_self c rest)
    have hrest : d ∉ rest := fun hm => h (List.mem_cons_of_mem c hm)
    simp [strsepAt, hc, ih hrest]

/-- CTCP extended-data types handled by the dispatcher. -/
inductive Ctcp
  | action
  | version
  | ping
  | time
  | dcc
  | sed
deriving DecidableEq

/-- Modelled from the spec: `irc_ctcp_from_string` belongs to the lirc
library (`lirc/irc.h`), which is not under src/.  Spec §4.1 recognizes the
verbs ACTION, VERSION, PING, TIME (the source's own comment at door_irc.c:281
additionally names DCC and SED as known extended data); any other verb maps
to a negative value, which the dispatcher rejects with an error log. -/
def ctcpFromString (name : List Char) : Option Ctcp :=
  if name = "ACTION".toList then some Ctcp.action
  else if name = "VERSION".toList then some Ctcp.version
  else if name = "PING".toList then some Ctcp.ping
  else if name = "TIME".toList then some Ctcp.time
  else if name = "DCC".toList then some Ctcp.dcc
  else if name = "SED".toList then some Ctcp.sed
  else none

/-- Modelled from the spec: ANSI color escape strings from `include/term.h`
(not under src/); their exact bytes affect no claim, only the formatted
announcement text they are embedded in. -/
def escChar : Char := Char.ofNat 27

def COLOR_GREEN : List Char := escChar :: "[32m".toList

def COLOR_RED : List Char := escChar :: "[31m".toList

def COLOR_CYAN : List Char := escChar :: "[36m".toList

def COLOR_RESET : List Char := escChar :: "[0m".toList

/-- Modelled from the spec: `BBS_SHORTNAME " / LIRC 0.1.0"`, the CTCP VERSION
reply payload; `BBS_SHORTNAME` is defined in `include/bbs.h` (not under
src/). -/
def versionReplyData : List Char := "LBBS / LIRC 0.1.0".toList

/-- `printf`-family rendering of a possibly NULL string argument (glibc
prints `(null)`). -/
def fmtS : Option (List Char) → List Char
  | none => "(null)".toList
  | some s => s

/-- Observable actions of `handle_irc_msg`. -/
inductive Effect
  | relay (channel : Option (List Char)) (text : List Char)
  | ctcpReply (target : List Char) (c : Ctcp) (data : Option (List Char))
  | send (line : List Char)
  | logDebug
  | logError
  | logWarn
  | undef
deriving DecidableEq

structure IrcMsg where
  numeric : Nat
  pfx : List Char
  command : List Char
  body : List Char
deriving DecidableEq

def actionLine (nick arg : List Char) : List Char :=
  "[ACTION] <".toList ++ nick ++ "> ".toList ++ arg ++ ['\n']

def chatLine (nick b : List Char) : List Char :=
  "<".toList ++ nick ++ "> ".toList ++ b ++ ['\n']

def joinLine (p : List Char) : List Char :=
  p ++ " has ".toList ++ COLOR_GREEN ++ "joined".toList ++ COLOR_RESET ++ ['\n']

def partLine (p : List Char) : List Char :=
  p ++ " has ".toList ++ COLOR_RED ++ "left".toList ++ COLOR_RESET ++ ['\n']

def quitLine (p : List Char) : List Char :=
  p ++ " has ".toList ++ COLOR_RED ++ "quit".toList ++ COLOR_RESET ++ ['\n']

def kickedLine (p : List Char) : List Char :=
  p ++ " has been ".toList ++ COLOR_RED ++ "kicked".toList ++ COLOR_RESET ++ ['\n']

def nickLine (p b : List Char) : List Char :=
  p ++ " is ".toList ++ COLOR_CYAN ++ "now known as".toList ++ COLOR_RESET
    ++ " ".toList ++ b ++ ['\n']

def pongLine (b : List Char) : List Char :=
  "PONG :".toList ++ b.drop 1

/-- The reply payload the PRIVMSG CTCP branch sends for each handled verb:
the fixed version string for VERSION, the echoed request data for PING, the
formatted current time for TIME (passed in as `timeStr`, standing for the
`strftime` result at door_irc.c:331). -/
def ctcpReplyData (c : Ctcp) (arg : Option (List Char)) (timeStr : List Char) :
    Option (List Char) :=
  match c with
  | Ctcp.version => some versionReplyData
  | Ctcp.ping => arg
  | Ctcp.time => some timeStr
  | _ => none

/-- `handle_irc_msg` (door_irc.c:258-373), embedded on the parsed message.
`timeStr` stands for the wall-clock string the TIME branch formats.  The
`.undef` effect marks the two paths where the C reads past the body's
terminator (`body++` after `strsep` found no space, or found one at the very
end): those are undefined behavior and are excluded by the well-formedness
hypotheses of the theorems below. -/
def handleIrcMsg (timeStr : List Char) (msg : IrcMsg) : List Effect :=
  if msg.numeric ≠ 0 then [Effect.logDebug]
  else if msg.command = "PRIVMSG".toList ∨ msg.command = "NOTICE".toList then
    match (strsepAt ' ' msg.body).2 with
    | none => [Effect.undef]
    | some afterSp =>
      let channel := (strsepAt ' ' msg.body).1
      if afterSp = [] then [Effect.undef]
      else
        let body1 := afterSp.drop 1
        if body1.head? = some ctcpDelim then
          let body2 := body1.drop 1
          if body2 = [] then [Effect.logError]
          else
            let tr := truncAt ctcpDelim body2
            let effTrunc : List Effect := if tr.2 then [] else [Effect.logError]
            let nameArg := strsepAt ' ' tr.1
            let nick := (strsepAt '!' msg.pfx).1
            match ctcpFromString nameArg.1 with
            | none => effTrunc ++ [Effect.logError]
            | some c =>
              if msg.command = "PRIVMSG".toList then
                effTrunc ++
                  match c with
                  | Ctcp.action =>
                      [Effect.relay (some channel)
                        (actionLine nick (fmtS nameArg.2))]
                  | Ctcp.version =>
                      [Effect.ctcpReply nick Ctcp.version (some versionReplyData)]
                  | Ctcp.ping => [Effect.ctcpReply nick Ctcp.ping nameArg.2]
                  | Ctcp.time => [Effect.ctcpReply nick Ctcp.time (some timeStr)]
                  | _ => [Effect.logWarn]
              else
                effTrunc
        else
          let nick := (strsepAt '!' msg.pfx).1
          [Effect.relay (some channel) (chatLine nick body1)]
  else if msg.command = "PING".toList then [Effect.send (pongLine msg.body)]
  else if msg.command = "JOIN".toList then
    [Effect.relay (some msg.body) (joinLine msg.pfx)]
  else if msg.command = "PART".toList then
    [Effect.relay (some msg.body) (partLine msg.pfx)]
  else if msg.command = "QUIT".toList then
    [Effect.relay (some msg.body) (quitLine msg.pfx)]
  else if msg.command = "KICKED".toList then
    [Effect.relay (some msg.body) (kickedLine msg.pfx)]
  else if msg.command = "NICK".toList then
    [Effect.relay none (nickLine msg.pfx msg.body)]
  else if msg.command = "MODE".toList then []
  else if msg.command = "ERROR".toList then []
  else if msg.command = "TOPIC".toList then []
  else [Effect.logWarn]

/-- C6 (code bug evaluation): a real IRC `KICK` message falls through every
branch of the dispatcher — the presence-change branch at door_irc.c:360
compares against the string `"KICKED"`, a command no IRC server sends — so
`KICK` is logged as an unhandled command and nothing is relayed to local
participants, while the dead `"KICKED"` branch would have produced the
kicked announcement. -/
theorem kick_logged_as_unhandled :
    handleIrcMsg []
        ⟨0, "nick!user@host".toList, "KICK".toList, "#lobby bob :bye".toList⟩
      = [Effect.logWarn] ∧
    handleIrcMsg []
        ⟨0, "nick!user@host".toList, "KICKED".toList, "#lobby bob :bye".toList⟩
      = [Effect.relay (some "#lobby bob :bye".toList)
          (kickedLine "nick!user@host".toList)] := by
  constructor
  · decide
  · decide

/-- The raw `msg->body` of a PRIVMSG/NOTICE carrying a CTCP payload:
`CHANNEL :\x01PAYLOAD\x01` (the message parser has already removed the
leading `:` of the trailing parameter except the one the dispatcher skips). -/
def ctcpBody (chan payload : List Char) : List Char :=
  chan ++ ' ' :: ':' :: ctcpDelim :: payload ++ [ctcpDelim]

/-- The payload for verb `v` with optional argument. -/
def ctcpPayload (v : List Char) (arg : Option (List Char)) : List Char :=
  v ++ (match arg with | none => [] | some a => ' ' :: a)


/-- Core of C3, stated for any verb `v` that the CTCP table maps to one of
the three reply-generating types: PRIVMSG yields exactly the one outbound
CTCP reply, NOTICE yields nothing. -/
theorem ctcp_reply_generic (chan pfx timeStr : List Char)
    (arg : Option (List Char)) (v : List Char) (c : Ctcp)
    (hfs : ctcpFromString v = some c)
    (hvsp : ' ' ∉ v)
    (hc : c = Ctcp.version ∨ c = Ctcp.ping ∨ c = Ctcp.time)
    (hchan : ' ' ∉ chan)
    (hdelim : ctcpDelim ∉ ctcpPayload v arg) :
    handleIrcMsg timeStr
        ⟨0, pfx, "PRIVMSG".toList, ctcpBody chan (ctcpPayload v arg)⟩
      = [Effect.ctcpReply (strsepAt '!' pfx).1 c (ctcpReplyData c arg timeStr)] ∧
    handleIrcMsg timeStr
        ⟨0, pfx, "NOTICE".toList, ctcpBody chan (ctcpPayload v arg)⟩
      = [] := by
  have hbody : strsepAt ' ' (ctcpBody chan (ctcpPayload v arg))
      = (chan, some (':' :: ctcpDelim :: (ctcpPayload v arg ++ [ctcpDelim]))) := by
    have := strsepAt_append (d := ' ')
      (x := chan) (y := ':' :: ctcpDelim :: (ctcpPayload v arg ++ [ctcpDelim])) hchan
    simpa [ctcpBody] using this
  have htr : truncAt ctcpDelim (ctcpPayload v arg ++ [ctcpDelim])
      = (ctcpPayload v arg, true) := by
    have := strsepAt_append (d := ctcpDelim)
      (x := ctcpPayload v arg) (y := []) hdelim
    simp [truncAt, this]
  have hname : strsepAt ' ' (ctcpPayload v arg) = (v, arg) := by
    cases arg with
    | none => simpa [ctcpPayload] using strsepAt_not_mem hvsp
    | some a => simpa [ctcpPayload] using strsepAt_append (x := v) (y := a) hvsp
  constructor
  · rcases hc with rfl | rfl | rfl <;>
      simp [handleIrcMsg, hbody, htr, hname, hfs, ctcpReplyData]
  · simp [handleIrcMsg, hbody, htr, hname, hfs]

/-- C3: for every well-formed incoming message whose body carries CTCP
VERSION, PING, or TIME — any channel without spaces, any source prefix, any
argument free of the 0x01 delimiter — delivery via PRIVMSG produces exactly
one effect: the corresponding CTCP reply on the outbound connection
(door_irc.c:317-333); in particular nothing is relayed onto any
participant's delivery queue (no `relay_to_local` effect).  The identical
body delivered via NOTICE produces no effect at all (door_irc.c:338-340): a
CTCP reply never triggers another reply. -/
theorem ctcp_privmsg_replies_notice_silent
    (chan pfx timeStr : List Char) (arg : Option (List Char))
    (v : List Char) (c : Ctcp)
    (hv : (v, c) = ("VERSION".toList, Ctcp.version) ∨
      (v, c) = ("PING".toList, Ctcp.ping) ∨
      (v, c) = ("TIME".toList, Ctcp.time))
    (hchan : ' ' ∉ chan)
    (hdelim : ctcpDelim ∉ ctcpPayload v arg) :
    handleIrcMsg timeStr
        ⟨0, pfx, "PRIVMSG".toList, ctcpBody chan (ctcpPayload v arg)⟩
      = [Effect.ctcpReply (strsepAt '!' pfx).1 c (ctcpReplyData c arg timeStr)] ∧
    handleIrcMsg timeStr
        ⟨0, pfx, "NOTICE".toList, ctcpBody chan (ctcpPayload v arg)⟩
      = [] := by
  rcases hv with h | h | h <;> injection h with h1 h2 <;> subst h1 <;> subst h2 <;>
    exact ctcp_reply_generic _ _ _ _ _ _ (by decide) (by decide)
      (by simp) hchan hdelim

/-- Witness for C3: CTCP VERSION from `nick!user@host` to `#lobby`. -/
theorem ctcp_privmsg_replies_notice_silent_witness :
    handleIrcMsg []
        ⟨0, "nick!user@host".toList, "PRIVMSG".toList,
          ctcpBody "#lobby".toList (ctcpPayload "VERSION".toList none)⟩
      = [Effect.ctcpReply (strsepAt '!' "nick!user@host".toList).1 Ctcp.version
          (ctcpReplyData Ctcp.version none [])] ∧
    handleIrcMsg []
        ⟨0, "nick!user@host".toList, "NOTICE".toList,
          ctcpBody "#lobby".toList (ctcpPayload "VERSION".toList none)⟩
      = [] :=
  ctcp_privmsg_replies_notice_silent "#lobby".toList "nick!user@host".toList []
    none "VERSION".toList Ctcp.version (Or.inl rfl) (by decide) (by decide)

/-! ## Client registry: `load_config` (door_irc.c:83-143), `join_client`
(door_irc.c:218-251), `leave_client` (door_irc.c:185-216), `unload_module`
(door_irc.c:689-716)

`load_config` walks the configuration sections and creates one client per
section, skipping the reserved `[general]` section (`strcmp`, exact match)
and appending each new client to the registry tail.  It performs no
duplicate-name detection of any kind.  Allocation/connect failures, which
merely drop the affected section, are not modelled.  Modelled from the spec:
`bbs_config_walk` belongs to the configuration loader (not under src/); per
spec §4.6 ("one client per section besides a reserved general section") the
walked configuration is the file's list of section names in order. -/

def loadConfig (sections : List String) : List String :=
  sections.filter (fun s => s ≠ "general")

/-- C7 counterexample: a configuration with two `[net1]` sections.
`load_config` creates one client per section with no duplicate check and no
conflict report, so the registry retains two live entries under the key
`net1` — refuting "exactly one retained client (or a reported conflict),
never two live entries with the same key". -/
theorem load_config_retains_duplicate_names :
    loadConfig ["general", "net1", "net1"] = ["net1", "net1"] ∧
      ¬ (loadConfig ["general", "net1", "net1"]).Nodup := by
  constructor
  · decide
  · decide

/-- C7 amended: loading creates exactly one live client per non-`general`
section, preserving duplicates — the number of registry entries bearing a
given client name equals the number of configuration sections with that
name. -/
theorem load_config_one_client_per_section (sections : List String)
    (name : String) (h : name ≠ "general") :
    (loadConfig sections).count name = sections.count name := by
  induction sections with
  | nil => rfl
  | cons s ss ih =>
    by_cases hs : s = "general"
    · subst hs
      have hgen : loadConfig ("general" :: ss) = loadConfig ss := by
        simp [loadConfig]
      rw [hgen, ih, List.count_cons]
      simp [Ne.symm h]
    · have hkeep : loadConfig (s :: ss) = s :: loadConfig ss := by
        simp [loadConfig, hs]
      rw [hkeep, List.count_cons, List.count_cons, ih]

/-- Witness for the amended C7 on the duplicate-section configuration. -/
theorem load_config_one_client_per_section_witness :
    (loadConfig ["general", "net1", "net1"]).count "net1"
      = (["general", "net1", "net1"] : List String).count "net1" :=
  load_config_one_client_per_section ["general", "net1", "net1"] "net1"
    (by decide)

/-- A registry client: its unique-intent name and attached participants
(stand-ins for `struct participant *`). -/
structure ClientS where
  cname : String
  parts : List Nat
deriving DecidableEq

structure Registry where
  unloading : Bool
  clients : List ClientS
deriving DecidableEq

/-- `join_client`'s insertion into the first client whose name matches
case-insensitively (`strcasecmp`), new participant at the list head. -/
def insertPart (pid : Nat) (name : String) : List ClientS → List ClientS
  | [] => []
  | c :: cs =>
    if c.cname.toLower = name.toLower then
      { c with parts := pid :: c.parts } :: cs
    else
      c :: insertPart pid name cs

/-- `join_client` (door_irc.c:218-251): under the registry write lock, look
the client up by name (case-insensitive); if absent, fail with no side
effects; otherwise allocate the participant and push it onto the client's
participant list.  Allocation and pipe failures, which also fail with no
side effects, are not modelled.  Because `unload_module` sets `unloading`
and empties the registry inside one critical section of the same lock, a
join observes either the pre-unload registry or the empty one. -/
def joinClient (st : Registry) (name : String) (pid : Nat) :
    Registry × Option Nat :=
  if st.clients.any (fun c => c.cname.toLower = name.toLower) then
    ({ st with clients := insertPart pid name st.clients }, some pid)
  else
    (st, none)

inductive LeaveKind
  | freedOnly
  | removed
deriving DecidableEq

/-- `leave_client` (door_irc.c:185-216): under the registry write lock, if
`unloading` is set the client and its participant list are already gone —
the participant only frees itself and nothing in the registry is touched
(`LeaveKind.freedOnly`); otherwise the participant is removed from its
client's list (participant ids are distinct, standing for pointers). -/
def leaveClient (st : Registry) (cname : String) (pid : Nat) :
    Registry × LeaveKind :=
  if st.unloading then
    (st, LeaveKind.freedOnly)
  else
    ({ st with clients := st.clients.map (fun c =>
        if c.cname = cname then
          { c with parts := c.parts.filter (fun q => q ≠ pid) }
        else c) },
     LeaveKind.removed)

/-- `unload_module` (door_irc.c:689-716): inside one write-locked critical
section, set the one-way `unloading` flag and detach every client (and each
client's participants). -/
def unloadModule (_st : Registry) : Registry :=
  { unloading := true, clients := [] }

/-- The reachable-state invariant backing C4: the only writer of `unloading`
is `unload_module`, which empties the registry in the same critical
section. -/
def RegInv (st : Registry) : Prop :=
  st.unloading = true → st.clients = []

theorem regInv_init : RegInv ⟨false, []⟩ := by
  intro h
  rfl

theorem regInv_unload (st : Registry) : RegInv (unloadModule st) := by
  intro _
  rfl

theorem regInv_join (st : Registry) (name : String) (pid : Nat)
    (h : RegInv st) : RegInv (joinClient st name pid).1 := by
  unfold joinClient
  split
  · intro hu
    have hc := h hu
    rename_i hany
    rw [hc] at hany
    simp at hany
  · exact h

theorem regInv_leave (st : Registry) (cname : String) (pid : Nat)
    (h : RegInv st) : RegInv (leaveClient st cname pid).1 := by
  unfold leaveClient
  split
  · exact h
  · intro hu
    have := h hu
    simp [this]

/-- C4: in any reachable registry state with the one-way `unloading` flag
set (so the unload critical section has already emptied the registry), a
join request finds no client, creates no participant and leaves the state
untouched; and a racing leave performs only the no-op self-cleanup
(`LeaveKind.freedOnly`) — it does not remove the participant from any
client list a second time. -/
theorem unloading_refuses_join_leave_noop (st : Registry)
    (name cname : String) (pid qid : Nat)
    (hinv : RegInv st) (hu : st.unloading = true) :
    joinClient st name pid = (st, none) ∧
      leaveClient st cname qid = (st, LeaveKind.freedOnly) := by
  have hc := hinv hu
  constructor
  · simp [joinClient, hc]
  · simp [leaveClient, hu]

/-- Witness for C4 in the post-unload state. -/
theorem unloading_refuses_join_leave_noop_witness :
    joinClient (unloadModule ⟨false, [⟨"net1", [7]⟩]⟩) "net1" 9
        = (unloadModule ⟨false, [⟨"net1", [7]⟩]⟩, none) ∧
      leaveClient (unloadModule ⟨false, [⟨"net1", [7]⟩]⟩) "net1" 7
        = (unloadModule ⟨false, [⟨"net1", [7]⟩]⟩, LeaveKind.freedOnly) :=
  unloading_refuses_join_leave_noop _ "net1" "net1" 9 7
    (regInv_unload _) rfl

/-! ## Thread join: `__bbs_pthread_join` (thread.c:245-308)

The wrapper looks the target up in the thread registry, rejects detached or
unregistered threads, and then joins.  If the target has not yet marked
itself `waitingjoin` (it is about to exit but has not reached its cleanup
handler), the wrapper first tries `pthread_timedjoin_np` with a 30 ms
timeout; only if that times out does it emit a warning — and then keeps
retrying the timed join in a loop until the thread exits, rather than
returning failure.  `exitsAfter` abstracts the target thread's behavior: the
number of 30 ms attempts that time out before the thread finally exits (the
thread does eventually exit, which is what makes the C loop terminate). -/

inductive JoinOutcome
  | joined (warned : Bool)
  | errNotRegistered
  | errDetached
deriving DecidableEq

/-- The retry loop at thread.c:290-292: `while (res && res == ETIMEDOUT)
res = pthread_timedjoin_np(...)`, with `remaining` attempts still timing out
before the target exits; returns the final `pthread_timedjoin_np` result
(0 = joined). -/
def joinSpin : Nat → Int
  | 0 => 0
  | n + 1 => joinSpin n

theorem joinSpin_eq_zero (n : Nat) : joinSpin n = 0 := by
  induction n with
  | zero => rfl
  | succ n ih => exact ih

/-- `__bbs_pthread_join` (thread.c:245-308) for a thread whose registry
entry has the given flags. -/
def bbsPthreadJoin (registered detached waitingjoin : Bool)
    (exitsAfter : Nat) : JoinOutcome :=
  if registered = false then JoinOutcome.errNotRegistered
  else if detached then JoinOutcome.errDetached
  else if waitingjoin = false then
    if exitsAfter = 0 then
      JoinOutcome.joined false
    else if joinSpin (exitsAfter - 1) = 0 then
      JoinOutcome.joined true
    else
      JoinOutcome.joined true
  else
    JoinOutcome.joined false

/-- C9: calling the join wrapper on a registered, joinable thread that has
not yet marked itself as waiting to be joined always completes the join, for
every possible exit delay of the target: if the thread exits within the
30 ms timed-join interval (`exitsAfter = 0`) no warning is emitted, and
otherwise the non-completion is reported as a warning while the wrapper
keeps retrying until the join succeeds — it never turns the timeout into a
failure return. -/
theorem pthread_join_retries_then_warns (exitsAfter : Nat) :
    bbsPthreadJoin true false false exitsAfter
      = JoinOutcome.joined (exitsAfter != 0) := by
  unfold bbsPthreadJoin
  cases exitsAfter with
  | zero => simp
  | succ n => simp [joinSpin_eq_zero]
